import Mathlib

/-!
Verification of the rate-limited broadcast delivery engine of the NurVPN
repository (`src/handlers/admin/sender/sender_service.py`).

The development shallowly embeds the two cores of the engine:

* `RateLimiter` — the sliding-window admission control (`RateLimiter.acquire`
  together with `RateLimiter._clean_old_timestamps`), modelled as a transition
  system over the deque of grant timestamps.  Clock readings (`time.time()`)
  are rationals; the lock serializes all `acquire` iterations, so a run is a
  monotone sequence of check iterations.  Sleeping only determines *when* the
  next check happens, which the arbitrary (monotone) check schedule covers.

* `BroadcastService` — the queue/worker/delay machinery
  (`_send_single_message`, `_worker`, `_process_delayed_messages`,
  `_save_blocked_users`, `_progress_loop`, `broadcast`), modelled as explicit
  state passing over `BroadcastState`.  The transport (`bot.send_photo` /
  `bot.send_message`) is abstracted as a function from recipient id and the
  message's current `attempts` counter to a classified outcome `SendResult`
  whose constructors mirror exactly the `except` arms of
  `_send_single_message`.  Wall-clock sleeps (`retry_after`,
  `rate_limiter.acquire`, the poll intervals) only delay execution and do not
  touch any counter, so they are not part of the counting model.
-/

/-! ## RateLimiter (`sender_service.py`, lines 73-100) -/

/-- State of `RateLimiter`: `max_rate`, `window` and the deque `send_times`
of recorded grant timestamps (front of the list = oldest, `deque` order). -/
structure RateLimiter where
  max_rate : ℕ
  window : ℚ
  send_times : List ℚ
deriving DecidableEq

/-- The pruning loop of `RateLimiter._clean_old_timestamps`: pop entries from
the front of the deque while the oldest entry is `<= cutoff_time`. -/
def cleanOld (cutoff : ℚ) : List ℚ → List ℚ
  | [] => []
  | t :: ts => if t ≤ cutoff then cleanOld cutoff ts else t :: ts

/-- `RateLimiter._clean_old_timestamps(current_time)`:
`cutoff_time = current_time - window`, then pop old entries. -/
def RateLimiter.clean_old_timestamps (rl : RateLimiter) (current_time : ℚ) : RateLimiter :=
  { rl with send_times := cleanOld (current_time - rl.window) rl.send_times }

/-- One iteration of the `while True` loop inside `RateLimiter.acquire`, at
clock reading `now`: prune, then either grant (append `now`, return `True`)
or report that the caller must sleep and re-check (`False`).  The sleep
duration `(oldest + window) - now + 0.001` only schedules the next check. -/
def RateLimiter.acquireCheck (rl : RateLimiter) (now : ℚ) : RateLimiter × Bool :=
  let rl' := rl.clean_old_timestamps now
  if rl'.send_times.length < rl.max_rate then
    ({ rl' with send_times := rl'.send_times ++ [now] }, true)
  else
    (rl', false)

/-- A serialized run of check iterations (the `asyncio.Lock` serializes all
concurrent `acquire` calls, so every run is such a sequence).  Returns the
final limiter state together with the list of granted timestamps. -/
def RateLimiter.runChecks (rl : RateLimiter) : List ℚ → RateLimiter × List ℚ
  | [] => (rl, [])
  | now :: rest =>
    let step := rl.acquireCheck now
    let next := step.1.runChecks rest
    (next.1, if step.2 then now :: next.2 else next.2)

/-- Membership of a grant timestamp `s` in the closed trailing window
`[t - window, t]` (the window form used by the specification). -/
def inClosedWindow (window t s : ℚ) : Bool :=
  decide (t - window ≤ s) && decide (s ≤ t)

/-- Membership of a grant timestamp `s` in the half-open trailing window
`(t - window, t]` (the window the code actually enforces, since
`_clean_old_timestamps` prunes with `send_times[0] <= cutoff_time`). -/
def inWindow (window t s : ℚ) : Bool :=
  decide (t - window < s) && decide (s ≤ t)

/-! ## BroadcastService (`sender_service.py`, lines 103-331) -/

/-- The test `"chat not found" in str(e).lower()` used by the
`TelegramBadRequest` arm of `_send_single_message` (substring containment,
realised here through `String.splitOn`). -/
def chatNotFound (e : String) : Bool :=
  ((String.map Char.toLower e).splitOn "chat not found").length != 1

/-- Classified outcome of one transport call (`bot.send_photo` /
`bot.send_message`), one constructor per `except` arm of
`_send_single_message`:
`success` — no exception; `retryAfter` — `TelegramRetryAfter` with its
`retry_after` seconds; `forbidden` — `TelegramForbiddenError`;
`badRequest` — `TelegramBadRequest` carrying `str(e)`;
`otherError` — any other `Exception`. -/
inductive SendResult where
  | success : SendResult
  | retryAfter : ℕ → SendResult
  | forbidden : SendResult
  | badRequest : String → SendResult
  | otherError : SendResult
deriving DecidableEq

/-- One entry of the `messages` list handed to `broadcast`
(the dict `{"tg_id": ..., "text": ..., "photo": ..., "keyboard": ...}`;
the keyboard never influences control flow and is omitted). -/
structure MsgData where
  tg_id : ℤ
  text : String
  photo : Option String
deriving DecidableEq

/-- `BroadcastMessage`: per-recipient payload plus the mutable retry state
(`attempts`, `retry_after`) exactly as in the source class. -/
structure BroadcastMessage where
  tg_id : ℤ
  text : String
  photo : Option String
  attempts : ℕ
  retry_after : Option ℕ
deriving DecidableEq

/-- Mutable state of a `BroadcastService` run: `blocked_users` (a `set`),
the two `asyncio.Queue`s as FIFO lists (front = next to be dequeued),
`results`, `total_sent`, and a ghost log `send_log` recording the recipient
id of every transport invocation (used only to state how often a recipient
was attempted; it influences nothing). -/
structure BroadcastState where
  blocked_users : Finset ℤ
  queue : List BroadcastMessage
  delayed_queue : List BroadcastMessage
  results : List Bool
  total_sent : ℕ
  send_log : List ℤ
deriving DecidableEq

/-- `BroadcastService._send_single_message(msg)`: acquire the rate limiter
(a pure delay, not modelled here), perform the transport call, and classify
the outcome.  Returns the `True`/`False` result, the message after its
in-place mutation, and the new service state.  Mirrors the `except` arms:
`TelegramRetryAfter` sets `retry_after`, bumps `attempts` and puts the
message on `delayed_queue`; `TelegramForbiddenError` adds to
`blocked_users`; `TelegramBadRequest` adds to `blocked_users` only when the
message contains `"chat not found"`; any other exception is just logged. -/
def send_single_message (sendFn : ℤ → ℕ → SendResult) (st : BroadcastState)
    (msg : BroadcastMessage) : Bool × BroadcastMessage × BroadcastState :=
  let st := { st with send_log := st.send_log ++ [msg.tg_id] }
  match sendFn msg.tg_id msg.attempts with
  | SendResult.success => (true, msg, st)
  | SendResult.retryAfter seconds =>
    let msg' := { msg with retry_after := some seconds, attempts := msg.attempts + 1 }
    (false, msg', { st with delayed_queue := st.delayed_queue ++ [msg'] })
  | SendResult.forbidden =>
    (false, msg, { st with blocked_users := insert msg.tg_id st.blocked_users })
  | SendResult.badRequest e =>
    if chatNotFound e then
      (false, msg, { st with blocked_users := insert msg.tg_id st.blocked_users })
    else
      (false, msg, st)
  | SendResult.otherError => (false, msg, st)

/-- One productive iteration of `BroadcastService._worker` (the `TimeoutError`
branch of an empty queue does nothing, hence `none`; `workers = 0` means no
worker task was created, so no worker iteration can ever run):
dequeue, send, then `if success: total_sent += 1; results.append(True)`
`elif msg.attempts == 0: results.append(False)`. -/
def workerStep (workers : ℕ) (sendFn : ℤ → ℕ → SendResult) (st : BroadcastState) :
    Option BroadcastState :=
  match st.queue with
  | [] => none
  | msg :: rest =>
    if workers = 0 then none
    else
      let out := send_single_message sendFn { st with queue := rest } msg
      if out.1 then
        some { out.2.2 with
               total_sent := out.2.2.total_sent + 1
               results := out.2.2.results ++ [true] }
      else if out.2.1.attempts = 0 then
        some { out.2.2 with results := out.2.2.results ++ [false] }
      else
        some out.2.2

/-- Python truthiness of `msg.retry_after` (`None` and `0` are falsy). -/
def truthy : Option ℕ → Bool
  | none => false
  | some n => n != 0

/-- The `if msg.retry_after: await asyncio.sleep(...); msg.retry_after = None`
prefix of `_process_delayed_messages` (the sleep is a pure delay). -/
def clearRetryAfter (msg : BroadcastMessage) : BroadcastMessage :=
  if truthy msg.retry_after then { msg with retry_after := none } else msg

/-- One productive iteration of `BroadcastService._process_delayed_messages`
(the polling/sleep branches of an empty delayed queue do nothing):
wait out `retry_after`, then requeue while `attempts < 3`, otherwise record
the exhausted unit as one failure. -/
def delayedStep (st : BroadcastState) : Option BroadcastState :=
  match st.delayed_queue with
  | [] => none
  | msg :: rest =>
    let msg' := clearRetryAfter msg
    if msg'.attempts < 3 then
      some { st with
             delayed_queue := rest
             queue := st.queue ++ [msg'] }
    else
      some { st with
             delayed_queue := rest
             results := st.results ++ [false] }

/-- One step of the engine under a scheduler that favours workers; used for
the executable runs.  (`BStep` below is the fully nondeterministic version.) -/
def runStep (workers : ℕ) (sendFn : ℤ → ℕ → SendResult) (st : BroadcastState) :
    Option BroadcastState :=
  match workerStep workers sendFn st with
  | some st' => some st'
  | none => delayedStep st

/-- Run the engine for at most `fuel` productive steps (the run stops early
as soon as no task can make progress). -/
def run (workers : ℕ) (sendFn : ℤ → ℕ → SendResult) : ℕ → BroadcastState → BroadcastState
  | 0, st => st
  | fuel + 1, st =>
    match runStep workers sendFn st with
    | none => st
    | some st' => run workers sendFn fuel st'

/-- The drain condition `broadcast` waits for: the work queue is joined and
the delayed queue polls empty. -/
def drained (st : BroadcastState) : Bool :=
  st.queue.isEmpty && st.delayed_queue.isEmpty

/-- Seeding of the work queue by `broadcast`: one fresh `BroadcastMessage`
per input dict, `attempts = 0`, `retry_after = None`. -/
def initMessages (messages : List MsgData) : List BroadcastMessage :=
  messages.map fun m =>
    { tg_id := m.tg_id
      text := m.text
      photo := m.photo
      attempts := 0
      retry_after := none }

/-- The service state right after `broadcast` reset its fields and seeded the
work queue. -/
def initState (messages : List MsgData) : BroadcastState :=
  { blocked_users := ∅
    queue := initMessages messages
    delayed_queue := []
    results := []
    total_sent := 0
    send_log := [] }

/-- The engine part of `broadcast`: seed, run until both queues are drained,
and return the drained final state (`none` while not yet drained within
`fuel` steps — the real `broadcast` simply keeps waiting). -/
def broadcastRun (workers : ℕ) (sendFn : ℤ → ℕ → SendResult) (fuel : ℕ)
    (messages : List MsgData) : Option BroadcastState :=
  let final := run workers sendFn fuel (initState messages)
  if drained final then some final else none

/-- The `stats` dict computed at the end of `broadcast`
(`total_duration` and `avg_speed` are wall-clock quantities and are not part
of the counting model). -/
structure BroadcastStats where
  total_sent : ℕ
  success_count : ℕ
  failed_count : ℕ
  total_messages : ℕ
  blocked_users : ℕ
  blocked_user_ids : Finset ℤ
deriving DecidableEq

/-- `success_count = sum(1 for r in self.results if r)`,
`failed_count = len(self.results) - success_count`, etc. -/
def statsOf (messages : List MsgData) (st : BroadcastState) : BroadcastStats :=
  { total_sent := st.total_sent
    success_count := st.results.count true
    failed_count := st.results.length - st.results.count true
    total_messages := messages.length
    blocked_users := st.blocked_users.card
    blocked_user_ids := st.blocked_users }

/-- Outcome of the external collaborator `save_blocked_user_ids`
(`persistOk = false` models the collaborator raising). -/
def save_blocked_user_ids_result (persistOk : Bool) : Except String Unit :=
  if persistOk then Except.ok () else Except.error "db error"

/-- Outcome of `await self._session.rollback()` in the `except` arm of
`_save_blocked_users` (`rollbackOk = false` models the rollback itself
raising — the correlated case, since the session just failed). -/
def session_rollback_result (rollbackOk : Bool) : Except String Unit :=
  if rollbackOk then Except.ok () else Except.error "rollback error"

/-- `BroadcastService._save_blocked_users`: early return when no user is
blocked; otherwise one call to `save_blocked_user_ids` (with the configured
session, or a fresh one from `async_session_maker` when `self._session is
None`).  A failure of that call is caught (`except Exception`) and logged,
and — when a session is configured — answered with
`await self._session.rollback()`, which is *not* guarded: if the rollback
itself raises, that exception propagates out of `_save_blocked_users`.
Returns the list of collaborator invocations (the id sets passed) together
with what the method raises to its caller. -/
def save_blocked_users (hasSession persistOk rollbackOk : Bool) (blocked : Finset ℤ) :
    List (Finset ℤ) × Except String Unit :=
  if blocked = ∅ then ([], Except.ok ())
  else
    match save_blocked_user_ids_result persistOk with
    | Except.ok _ => ([blocked], Except.ok ())
    | Except.error _ =>
      if hasSession then
        match session_rollback_result rollbackOk with
        | Except.ok _ => ([blocked], Except.ok ())
        | Except.error e => ([blocked], Except.error e)
      else
        ([blocked], Except.ok ())

/-- Outcome of one invocation of the external progress callback
(`progressOk = false` models the callback raising). -/
def call_on_progress (progressOk : Bool) : Except String Unit :=
  if progressOk then Except.ok () else Except.error "callback error"

/-- The externally observable outcome of one `broadcast` run:
the returned stats, whether the periodic `_progress_loop` task was created
(`on_progress and total > 0`), the arguments of the final `on_progress`
invocation (if one was made), whether that invocation ran without the
callback raising, and the invocations of `save_blocked_user_ids`. -/
structure BroadcastOutcome where
  stats : BroadcastStats
  progressTaskStarted : Bool
  finalProgress : Option (ℕ × ℕ × ℕ × ℕ)
  finalProgressDelivered : Bool
  persistCalls : List (Finset ℤ)
deriving DecidableEq

/-- `BroadcastService.broadcast(messages, workers, on_progress,
progress_interval)`: reset state, seed the queue, start the progress task
only when `on_progress and total > 0`, run workers plus the delayed-message
loop until both queues drain, make the final progress call (only if the
progress task exists; its exception is caught and logged), then flush the
blocked set — but only behind `if self._session is not None`, and with no
surrounding `try`, so whatever `_save_blocked_users` raises (a failing
rollback after a failing flush) propagates to the caller — and return the
stats dict.  `hasSession` is `self._session is not None`.  `none` means
the run has not drained within `fuel` steps (the coroutine is still
blocked); the `Except` layer records what `broadcast` raises to its
caller. -/
def broadcast (sendFn : ℤ → ℕ → SendResult) (messages : List MsgData) (workers : ℕ)
    (hasOnProgress progressOk hasSession persistOk rollbackOk : Bool) (fuel : ℕ) :
    Option (Except String BroadcastOutcome) :=
  let total := messages.length
  let progressTaskStarted := hasOnProgress && decide (0 < total)
  let final := run workers sendFn fuel (initState messages)
  if drained final then
    let finalProgress : Option (ℕ × ℕ × ℕ × ℕ) :=
      if progressTaskStarted then
        some (final.results.length, total, final.total_sent,
              final.results.length - final.total_sent)
      else none
    let finalProgressDelivered :=
      match finalProgress with
      | some _ =>
        match call_on_progress progressOk with
        | Except.ok _ => true
        | Except.error _ => false
      | none => false
    let persist :=
      if hasSession then save_blocked_users hasSession persistOk rollbackOk final.blocked_users
      else ([], Except.ok ())
    match persist.2 with
    | Except.error e => some (Except.error e)
    | Except.ok _ =>
      some (Except.ok
        { stats := statsOf messages final
          progressTaskStarted := progressTaskStarted
          finalProgress := finalProgress
          finalProgressDelivered := finalProgressDelivered
          persistCalls := persist.1 })
  else
    none

/-- Fully nondeterministic interleaving of the worker tasks and the
delayed-message task: at every moment either some worker or the delayed
loop completes its next productive iteration.  (Each iteration's mutations
happen without an intervening `await`, so they are atomic under the
cooperative scheduler.) -/
inductive BStep (workers : ℕ) (sendFn : ℤ → ℕ → SendResult) :
    BroadcastState → BroadcastState → Prop
  | worker {st st' : BroadcastState} :
      workerStep workers sendFn st = some st' → BStep workers sendFn st st'
  | delayed {st st' : BroadcastState} :
      delayedStep st = some st' → BStep workers sendFn st st'

/-- The always-rate-limited-then-unreachable transport used by the
lost-delivery-unit scenario: the first attempt hits flood control
(`TelegramRetryAfter`), the retry hits `TelegramForbiddenError`. -/
def lostUnitSend : ℤ → ℕ → SendResult :=
  fun _ a => if a = 0 then SendResult.retryAfter 1 else SendResult.forbidden

/-- A single-recipient input list for the lost-delivery-unit scenario. -/
def lostUnitMsgs : List MsgData := [⟨1, "hi", none⟩]

/-- The classifications of `_send_single_message` that mark the recipient as
unreachable (blocked): `TelegramForbiddenError`, or `TelegramBadRequest`
whose message contains `"chat not found"`. -/
def isUnreachable : SendResult → Bool
  | SendResult.forbidden => true
  | SendResult.badRequest e => chatNotFound e
  | _ => false

/-- The remaining error classifications of `_send_single_message` — neither
success, nor the explicit rate-limit signal, nor an unreachable/forbidden
classification: `TelegramBadRequest` without `"chat not found"`, or any
other exception. -/
def isTransient : SendResult → Bool
  | SendResult.badRequest e => !chatNotFound e
  | SendResult.otherError => true
  | _ => false

/-! ## Helper lemmas -/

@[simp] lemma clearRetryAfter_tg_id (m : BroadcastMessage) :
    (clearRetryAfter m).tg_id = m.tg_id := by
  unfold clearRetryAfter; split <;> rfl

@[simp] lemma clearRetryAfter_text (m : BroadcastMessage) :
    (clearRetryAfter m).text = m.text := by
  unfold clearRetryAfter; split <;> rfl

@[simp] lemma clearRetryAfter_photo (m : BroadcastMessage) :
    (clearRetryAfter m).photo = m.photo := by
  unfold clearRetryAfter; split <;> rfl

@[simp] lemma clearRetryAfter_attempts (m : BroadcastMessage) :
    (clearRetryAfter m).attempts = m.attempts := by
  unfold clearRetryAfter; split <;> rfl

lemma run_succ_of_step {workers : ℕ} {sendFn : ℤ → ℕ → SendResult} {n : ℕ}
    {st st' : BroadcastState} (h : runStep workers sendFn st = some st') :
    run workers sendFn (n + 1) st = run workers sendFn n st' := by
  simp [run, h]

lemma run_of_none {workers : ℕ} {sendFn : ℤ → ℕ → SendResult} {st : BroadcastState}
    (h : runStep workers sendFn st = none) : ∀ n, run workers sendFn n st = st
  | 0 => rfl
  | n + 1 => by simp [run, h]

lemma cleanOld_eq_filter {cutoff : ℚ} :
    ∀ {l : List ℚ}, l.Sorted (· ≤ ·) →
      cleanOld cutoff l = l.filter fun s => decide (cutoff < s)
  | [], _ => rfl
  | t :: ts, h => by
    rw [List.sorted_cons] at h
    by_cases ht : t ≤ cutoff
    · rw [cleanOld, if_pos ht, cleanOld_eq_filter h.2, List.filter_cons]
      simp [not_lt.mpr ht]
    · have hlt : cutoff < t := not_le.1 ht
      rw [cleanOld, if_neg ht, List.filter_cons]
      have hts : ts.filter (fun s => decide (cutoff < s)) = ts :=
        List.filter_eq_self.mpr fun b hb => decide_eq_true (lt_of_lt_of_le hlt (h.1 b hb))
      simp [hlt, hts]

lemma runChecks_cons (rl : RateLimiter) (now : ℚ) (rest : List ℚ) :
    rl.runChecks (now :: rest) =
      (((rl.acquireCheck now).1.runChecks rest).1,
       if (rl.acquireCheck now).2 then
         now :: ((rl.acquireCheck now).1.runChecks rest).2
       else ((rl.acquireCheck now).1.runChecks rest).2) := rfl

lemma acquireCheck_pos {rl : RateLimiter} {now : ℚ}
    (h : (cleanOld (now - rl.window) rl.send_times).length < rl.max_rate) :
    rl.acquireCheck now =
      (⟨rl.max_rate, rl.window, cleanOld (now - rl.window) rl.send_times ++ [now]⟩, true) := by
  unfold RateLimiter.acquireCheck RateLimiter.clean_old_timestamps
  rw [if_pos h]

lemma acquireCheck_neg {rl : RateLimiter} {now : ℚ}
    (h : ¬(cleanOld (now - rl.window) rl.send_times).length < rl.max_rate) :
    rl.acquireCheck now =
      (⟨rl.max_rate, rl.window, cleanOld (now - rl.window) rl.send_times⟩, false) := by
  unfold RateLimiter.acquireCheck RateLimiter.clean_old_timestamps
  rw [if_neg h]

/-- Core invariant of the sliding window: processing further checks from a
state whose deque holds exactly the past grants inside the current window
keeps every half-open trailing window below `max_rate`. -/
lemma runChecks_window_bound (maxRate : ℕ) (window : ℚ) (hw : 0 < window) :
    ∀ (checks : List ℚ) (G : List ℚ) (lastNow : ℚ),
      checks.Sorted (· ≤ ·) → (∀ c ∈ checks, lastNow ≤ c) →
      G.Sorted (· ≤ ·) → (∀ g ∈ G, g ≤ lastNow) →
      (∀ u, G.countP (inWindow window u) ≤ maxRate) →
      ∀ t,
        (G ++ (RateLimiter.runChecks
            ⟨maxRate, window, G.filter fun s => decide (lastNow - window < s)⟩ checks).2).countP
          (inWindow window t) ≤ maxRate := by
  intro checks
  induction checks with
  | nil =>
    intro G lastNow _ _ _ _ hQ t
    simpa [RateLimiter.runChecks] using hQ t
  | cons now rest ih =>
    intro G lastNow hsort hlb hG hGle hQ t
    rw [List.sorted_cons] at hsort
    have hln : lastNow ≤ now := hlb now (List.mem_cons_self _ _)
    have hclean :
        cleanOld (now - window) (G.filter fun s => decide (lastNow - window < s)) =
          G.filter fun s => decide (now - window < s) := by
      rw [cleanOld_eq_filter (hG.filter _), List.filter_filter]
      refine List.filter_congr fun a _ => ?_
      by_cases ha : now - window < a
      · have hla : lastNow - window < a := lt_of_le_of_lt (by linarith) ha
        simp [ha, hla]
      · simp [ha]
    by_cases hlen : (G.filter fun s => decide (now - window < s)).length < maxRate
    · -- this check grants `now`
      have hnowin : (decide (now - window < now) : Bool) = true :=
        decide_eq_true (by linarith)
      have hsingle : List.filter (fun s => decide (now - window < s)) [now] = [now] := by
        simpa using hw
      have hstate :
          (G.filter fun s => decide (now - window < s)) ++ [now] =
            (G ++ [now]).filter fun s => decide (now - window < s) := by
        rw [List.filter_append, hsingle]
      have hG' : (G ++ [now]).Sorted (· ≤ ·) := by
        rw [List.Sorted, List.pairwise_append]
        exact ⟨hG, List.pairwise_singleton _ _,
          fun a ha b hb => by
            rw [List.mem_singleton] at hb
            subst hb
            exact le_trans (hGle a ha) hln⟩
      have hG'le : ∀ g ∈ G ++ [now], g ≤ now := by
        intro g hg
        rcases List.mem_append.1 hg with hg | hg
        · exact le_trans (hGle g hg) hln
        · rw [List.mem_singleton] at hg
          subst hg
          exact le_refl _
      have hQ' : ∀ u, (G ++ [now]).countP (inWindow window u) ≤ maxRate := by
        intro u
        rw [List.countP_append]
        by_cases hu : inWindow window u now = true
        · have hu' : u - window < now ∧ now ≤ u := by
            simpa [inWindow, Bool.and_eq_true, decide_eq_true_eq] using hu
          have h1 : G.countP (inWindow window u) ≤
              (G.filter fun s => decide (now - window < s)).length := by
            rw [← List.countP_eq_length_filter]
            refine List.countP_mono_left fun a _ hpa => ?_
            have hpa' : u - window < a ∧ a ≤ u := by
              simpa [inWindow, Bool.and_eq_true, decide_eq_true_eq] using hpa
            exact decide_eq_true (by linarith [hu'.2, hpa'.1])
          have h2 : List.countP (inWindow window u) [now] ≤ 1 := by
            rcases hnow : inWindow window u now <;> simp [List.countP_cons, hnow]
          omega
        · have h2 : List.countP (inWindow window u) [now] = 0 := by
            simp [List.countP_cons, hu]
          rw [h2]
          simpa using hQ u
      have hrest := ih (G ++ [now]) now hsort.2 hsort.1 hG' hG'le hQ' t
      have hcond : (cleanOld (now - window)
          (G.filter fun s => decide (lastNow - window < s))).length < maxRate := by
        rw [hclean]; exact hlen
      rw [runChecks_cons, acquireCheck_pos hcond]
      simp only [hclean, hstate]
      simpa [List.append_assoc] using hrest
    · -- the check does not grant; the caller sleeps and re-checks later
      have hGle' : ∀ g ∈ G, g ≤ now := fun g hg => le_trans (hGle g hg) hln
      have hrest := ih G now hsort.2 hsort.1 hG hGle' hQ t
      have hcond : ¬(cleanOld (now - window)
          (G.filter fun s => decide (lastNow - window < s))).length < maxRate := by
        rw [hclean]; exact hlen
      rw [runChecks_cons, acquireCheck_neg hcond]
      simp only [hclean]
      simpa using hrest

/-- A worker iteration never breaks `total_sent = results.count true`:
`total_sent += 1` happens exactly when `True` is appended to `results`. -/
lemma workerStep_preserves_count {workers : ℕ} {sendFn : ℤ → ℕ → SendResult}
    {st st' : BroadcastState} (h : workerStep workers sendFn st = some st')
    (hst : st.total_sent = st.results.count true) :
    st'.total_sent = st'.results.count true := by
  obtain ⟨b, q, d, res, ts, log⟩ := st
  rcases q with _ | ⟨⟨mid, mtext, mphoto, matt, mra⟩, rest⟩
  · exact absurd h (by simp [workerStep])
  by_cases hwrk : workers = 0
  · exact absurd h (by simp [workerStep, hwrk])
  simp only at hst
  rcases hs : sendFn mid matt with _ | t | _ | e | _
  · -- success
    simp [workerStep, send_single_message, hwrk, hs] at h
    subst h
    simp [hst, List.count_append]
  · -- retryAfter: attempts + 1 ≠ 0, nothing is appended to results
    simp [workerStep, send_single_message, hwrk, hs] at h
    subst h
    simpa using hst
  · -- forbidden
    rcases Nat.eq_zero_or_pos matt with ha | ha
    · subst ha
      simp [workerStep, send_single_message, hwrk, hs] at h
      subst h
      simp [hst, List.count_append]
    · simp [workerStep, send_single_message, hwrk, hs, Nat.pos_iff_ne_zero.1 ha] at h
      subst h
      simpa using hst
  · -- badRequest
    rcases Nat.eq_zero_or_pos matt with ha | ha
    · subst ha
      by_cases hcnf : chatNotFound e <;>
          simp [workerStep, send_single_message, hwrk, hs, hcnf] at h <;>
        subst h <;> simp [hst, List.count_append]
    · by_cases hcnf : chatNotFound e <;>
          simp [workerStep, send_single_message, hwrk, hs, hcnf,
            Nat.pos_iff_ne_zero.1 ha] at h <;>
        subst h <;> simpa using hst
  · -- other exception
    rcases Nat.eq_zero_or_pos matt with ha | ha
    · subst ha
      simp [workerStep, send_single_message, hwrk, hs] at h
      subst h
      simp [hst, List.count_append]
    · simp [workerStep, send_single_message, hwrk, hs, Nat.pos_iff_ne_zero.1 ha] at h
      subst h
      simpa using hst

/-- A delayed-loop iteration never touches `total_sent` and appends at most
one `False`. -/
lemma delayedStep_preserves_count {st st' : BroadcastState}
    (h : delayedStep st = some st')
    (hst : st.total_sent = st.results.count true) :
    st'.total_sent = st'.results.count true := by
  obtain ⟨b, q, d, res, ts, log⟩ := st
  rcases d with _ | ⟨msg, rest⟩
  · exact absurd h (by simp [delayedStep])
  simp only at hst
  by_cases ha : msg.attempts < 3 <;>
      simp [delayedStep, ha] at h <;>
    subst h <;> simp [hst, List.count_append]

lemma bstep_preserves_count {workers : ℕ} {sendFn : ℤ → ℕ → SendResult}
    {st st' : BroadcastState} (h : BStep workers sendFn st st')
    (hst : st.total_sent = st.results.count true) :
    st'.total_sent = st'.results.count true := by
  cases h with
  | worker hw => exact workerStep_preserves_count hw hst
  | delayed hd => exact delayedStep_preserves_count hd hst

/-- When the rollback does not itself raise, `_save_blocked_users` raises
nothing: the flush failure is caught and answered with the rollback. -/
lemma save_blocked_users_rollback_ok (hasSession persistOk : Bool) (b : Finset ℤ) :
    (save_blocked_users hasSession persistOk true b).2 = Except.ok () := by
  unfold save_blocked_users save_blocked_user_ids_result session_rollback_result
  by_cases hb : b = ∅ <;> cases persistOk <;> cases hasSession <;> simp [hb]

/-! ## Claim theorems -/

/-- C2 (counterexample): the claimed invariant over the *closed* trailing
window `[now - window, now]` fails.  With `max_rate = 1`, `window = 1` and
acquire checks at clock times `0` and `1`, both checks grant (the timestamp
`0` is pruned at time `1` because `_clean_old_timestamps` pops entries with
`send_times[0] <= cutoff_time`), yet the closed window `[0, 1]` then
contains `2 > max_rate` granted timestamps. -/
theorem closed_window_invariant_fails :
    1 < ((RateLimiter.runChecks ⟨1, 1, []⟩ [0, 1]).2).countP (inClosedWindow 1 1) := by
  have h : (RateLimiter.runChecks ⟨1, 1, []⟩ [0, 1]).2 = [0, 1] := by
    norm_num [RateLimiter.runChecks, RateLimiter.acquireCheck,
      RateLimiter.clean_old_timestamps, cleanOld]
  rw [h]
  simp [List.countP_cons, inClosedWindow]

/-- C2 (amended): for every serialized sequence of acquire-loop checks with a
monotone clock, at every instant `t` the number of granted timestamps inside
the *half-open* trailing window `(t - window, t]` is at most `max_rate`;
`acquire` prunes entries that are at least `window` old, grants and records
`now` when fewer than `max_rate` entries remain, and otherwise sleeps until
the oldest entry leaves the window before re-checking under the same lock. -/
theorem rate_window_invariant (maxRate : ℕ) (window : ℚ) (hw : 0 < window)
    (checks : List ℚ) (hmono : checks.Sorted (· ≤ ·)) (t : ℚ) :
    ((RateLimiter.runChecks ⟨maxRate, window, []⟩ checks).2).countP (inWindow window t) ≤
      maxRate := by
  cases checks with
  | nil => simp [RateLimiter.runChecks]
  | cons now rest =>
    have hlb : ∀ c ∈ now :: rest, now ≤ c := by
      intro c hc
      rcases List.mem_cons.1 hc with rfl | hc
      · exact le_refl _
      · rw [List.sorted_cons] at hmono
        exact hmono.1 c hc
    have h := runChecks_window_bound maxRate window hw (now :: rest) [] now hmono hlb
      (by simp) (by simp) (by simp) t
    simpa using h

/-- C2 (witness): the amended invariant applied at `max_rate = 1`,
`window = 1`, checks at `0` and `1`, instant `t = 1`. -/
theorem rate_window_invariant_witness :
    (0 : ℚ) < 1 ∧ ([0, 1] : List ℚ).Sorted (· ≤ ·) ∧
      ((RateLimiter.runChecks ⟨1, 1, []⟩ [0, 1]).2).countP (inWindow 1 1) ≤ 1 :=
  ⟨by norm_num, by norm_num [List.sorted_cons],
    rate_window_invariant 1 1 (by norm_num) [0, 1] (by norm_num [List.sorted_cons]) 1⟩

/-- C1 (code bug): conservation fails.  For the single-recipient input whose
first send hits `TelegramRetryAfter` and whose retry hits
`TelegramForbiddenError`, the run drains with an empty `results` list
(`_worker` skips the failure record because `msg.attempts == 0` is false
after a retry, and no other code path ever counts the unit), so
`total_sent + failed_count = 0` while `total_messages = 1`: the delivery
unit is lost. -/
theorem conservation_violated :
    broadcastRun 5 lostUnitSend 20 lostUnitMsgs =
        some ⟨{1}, [], [], [], 0, [1, 1]⟩ ∧
      (statsOf lostUnitMsgs ⟨{1}, [], [], [], 0, [1, 1]⟩).total_sent +
          (statsOf lostUnitMsgs ⟨{1}, [], [], [], 0, [1, 1]⟩).failed_count = 0 ∧
      (statsOf lostUnitMsgs ⟨{1}, [], [], [], 0, [1, 1]⟩).total_messages = 1 :=
  ⟨rfl, rfl, rfl⟩

/-- C3: a recipient whose every send attempt yields `TelegramRetryAfter` is
attempted exactly 3 times (`send_log = [tg_id, tg_id, tg_id]`), then recorded
as exactly one failure (`results = [false]`) by the delayed-message loop and
discarded without requeueing; it is never added to `blocked_users`. -/
theorem retry_bound_three_attempts (tg_id : ℤ) (text : String) (photo : Option String)
    (sendFn : ℤ → ℕ → SendResult) (t0 t1 t2 : ℕ)
    (h0 : sendFn tg_id 0 = SendResult.retryAfter t0)
    (h1 : sendFn tg_id 1 = SendResult.retryAfter t1)
    (h2 : sendFn tg_id 2 = SendResult.retryAfter t2)
    (fuel : ℕ) (hfuel : 6 ≤ fuel) :
    broadcastRun 5 sendFn fuel [⟨tg_id, text, photo⟩] =
      some ⟨∅, [], [], [false], 0, [tg_id, tg_id, tg_id]⟩ := by
  obtain ⟨k, rfl⟩ : ∃ k, fuel = k + 6 := ⟨fuel - 6, by omega⟩
  have e1 : runStep 5 sendFn (initState [⟨tg_id, text, photo⟩]) =
      some ⟨∅, [], [⟨tg_id, text, photo, 1, some t0⟩], [], 0, [tg_id]⟩ := by
    simp [runStep, workerStep, send_single_message, initState, initMessages, h0]
  have e2 : runStep 5 sendFn ⟨∅, [], [⟨tg_id, text, photo, 1, some t0⟩], [], 0, [tg_id]⟩ =
      some ⟨∅, [clearRetryAfter ⟨tg_id, text, photo, 1, some t0⟩], [], [], 0, [tg_id]⟩ := by
    simp [runStep, workerStep, delayedStep]
  have e3 : runStep 5 sendFn
        ⟨∅, [clearRetryAfter ⟨tg_id, text, photo, 1, some t0⟩], [], [], 0, [tg_id]⟩ =
      some ⟨∅, [], [⟨tg_id, text, photo, 2, some t1⟩], [], 0, [tg_id, tg_id]⟩ := by
    simp [runStep, workerStep, send_single_message, h1]
  have e4 : runStep 5 sendFn ⟨∅, [], [⟨tg_id, text, photo, 2, some t1⟩], [], 0, [tg_id, tg_id]⟩ =
      some ⟨∅, [clearRetryAfter ⟨tg_id, text, photo, 2, some t1⟩], [], [], 0, [tg_id, tg_id]⟩ := by
    simp [runStep, workerStep, delayedStep]
  have e5 : runStep 5 sendFn
        ⟨∅, [clearRetryAfter ⟨tg_id, text, photo, 2, some t1⟩], [], [], 0, [tg_id, tg_id]⟩ =
      some ⟨∅, [], [⟨tg_id, text, photo, 3, some t2⟩], [], 0, [tg_id, tg_id, tg_id]⟩ := by
    simp [runStep, workerStep, send_single_message, h2]
  have e6 : runStep 5 sendFn
        ⟨∅, [], [⟨tg_id, text, photo, 3, some t2⟩], [], 0, [tg_id, tg_id, tg_id]⟩ =
      some ⟨∅, [], [], [false], 0, [tg_id, tg_id, tg_id]⟩ := by
    simp [runStep, workerStep, delayedStep]
  have e7 : runStep 5 sendFn ⟨∅, [], [], [false], 0, [tg_id, tg_id, tg_id]⟩ = none := rfl
  have hrun : run 5 sendFn (k + 6) (initState [⟨tg_id, text, photo⟩]) =
      ⟨∅, [], [], [false], 0, [tg_id, tg_id, tg_id]⟩ := by
    rw [show k + 6 = k + 5 + 1 by omega, run_succ_of_step e1,
        show k + 5 = k + 4 + 1 by omega, run_succ_of_step e2,
        show k + 4 = k + 3 + 1 by omega, run_succ_of_step e3,
        show k + 3 = k + 2 + 1 by omega, run_succ_of_step e4,
        show k + 2 = k + 1 + 1 by omega, run_succ_of_step e5,
        run_succ_of_step e6]
    exact run_of_none e7 k
  simp [broadcastRun, hrun, drained]

/-- C3 (witness): a transport that always answers `TelegramRetryAfter 1`
for recipient `1`, run with exactly enough fuel. -/
theorem retry_bound_three_attempts_witness :
    (fun _ _ => SendResult.retryAfter 1 : ℤ → ℕ → SendResult) 1 0 = SendResult.retryAfter 1 ∧
      (6 : ℕ) ≤ 6 ∧
      broadcastRun 5 (fun _ _ => SendResult.retryAfter 1) 6 [⟨1, "t", none⟩] =
        some ⟨∅, [], [], [false], 0, [1, 1, 1]⟩ :=
  ⟨rfl, by norm_num,
    retry_bound_three_attempts 1 "t" none (fun _ _ => SendResult.retryAfter 1) 1 1 1
      rfl rfl rfl 6 (by norm_num)⟩

/-- C4: a recipient whose send yields the recipient-unreachable outcome
(`TelegramForbiddenError`, or `TelegramBadRequest` containing
`"chat not found"`) is attempted exactly once (`send_log = [tg_id]`), added
to the blocked set reported in the returned stats, recorded as exactly one
failure (`results = [false]`), and never retried. -/
theorem blocked_classification (tg_id : ℤ) (text : String) (photo : Option String)
    (sendFn : ℤ → ℕ → SendResult)
    (h0 : isUnreachable (sendFn tg_id 0) = true)
    (fuel : ℕ) (hfuel : 1 ≤ fuel) :
    broadcastRun 5 sendFn fuel [⟨tg_id, text, photo⟩] =
      some ⟨{tg_id}, [], [], [false], 0, [tg_id]⟩ := by
  obtain ⟨k, rfl⟩ : ∃ k, fuel = k + 1 := ⟨fuel - 1, by omega⟩
  have e1 : runStep 5 sendFn (initState [⟨tg_id, text, photo⟩]) =
      some ⟨{tg_id}, [], [], [false], 0, [tg_id]⟩ := by
    rcases hs : sendFn tg_id 0 with _ | t | _ | e | _ <;>
        simp [isUnreachable, hs] at h0 <;>
      simp [runStep, workerStep, send_single_message, initState, initMessages, hs, h0]
  have e2 : runStep 5 sendFn ⟨{tg_id}, [], [], [false], 0, [tg_id]⟩ = none := rfl
  have hrun : run 5 sendFn (k + 1) (initState [⟨tg_id, text, photo⟩]) =
      ⟨{tg_id}, [], [], [false], 0, [tg_id]⟩ := by
    rw [run_succ_of_step e1]
    exact run_of_none e2 k
  simp [broadcastRun, hrun, drained]

/-- C4 (witness): a transport that always answers `TelegramForbiddenError`
for recipient `1`. -/
theorem blocked_classification_witness :
    isUnreachable ((fun _ _ => SendResult.forbidden : ℤ → ℕ → SendResult) 1 0) = true ∧
      (1 : ℕ) ≤ 3 ∧
      broadcastRun 5 (fun _ _ => SendResult.forbidden) 3 [⟨1, "t", none⟩] =
        some ⟨{1}, [], [], [false], 0, [1]⟩ :=
  ⟨rfl, by norm_num,
    blocked_classification 1 "t" none (fun _ _ => SendResult.forbidden) rfl 3 (by norm_num)⟩

/-- C5: a recipient whose send raises any error other than the explicit
rate-limit signal and the unreachable/forbidden classifications
(`TelegramBadRequest` without `"chat not found"`, or any other exception)
is recorded as exactly one failure on the first attempt
(`results = [false]`, `send_log = [tg_id]`), discarded without any retry,
and never added to the blocked set. -/
theorem transient_error_policy (tg_id : ℤ) (text : String) (photo : Option String)
    (sendFn : ℤ → ℕ → SendResult)
    (h0 : isTransient (sendFn tg_id 0) = true)
    (fuel : ℕ) (hfuel : 1 ≤ fuel) :
    broadcastRun 5 sendFn fuel [⟨tg_id, text, photo⟩] =
      some ⟨∅, [], [], [false], 0, [tg_id]⟩ := by
  obtain ⟨k, rfl⟩ : ∃ k, fuel = k + 1 := ⟨fuel - 1, by omega⟩
  have e1 : runStep 5 sendFn (initState [⟨tg_id, text, photo⟩]) =
      some ⟨∅, [], [], [false], 0, [tg_id]⟩ := by
    rcases hs : sendFn tg_id 0 with _ | t | _ | e | _ <;>
        simp [isTransient, hs] at h0 <;>
      simp [runStep, workerStep, send_single_message, initState, initMessages, hs, h0]
  have e2 : runStep 5 sendFn ⟨∅, [], [], [false], 0, [tg_id]⟩ = none := rfl
  have hrun : run 5 sendFn (k + 1) (initState [⟨tg_id, text, photo⟩]) =
      ⟨∅, [], [], [false], 0, [tg_id]⟩ := by
    rw [run_succ_of_step e1]
    exact run_of_none e2 k
  simp [broadcastRun, hrun, drained]

/-- C5 (witness): a transport that always raises a generic exception for
recipient `1`. -/
theorem transient_error_policy_witness :
    isTransient ((fun _ _ => SendResult.otherError : ℤ → ℕ → SendResult) 1 0) = true ∧
      (1 : ℕ) ≤ 3 ∧
      broadcastRun 5 (fun _ _ => SendResult.otherError) 3 [⟨1, "t", none⟩] =
        some ⟨∅, [], [], [false], 0, [1]⟩ :=
  ⟨rfl, by norm_num,
    transient_error_policy 1 "t" none (fun _ _ => SendResult.otherError) rfl 3 (by norm_num)⟩

/-- C6 (code bug): on the lost-delivery-unit run with a progress callback,
the final `on_progress` invocation — made after the queues drain — reports
`completed = len(results) = 0` while `total = 1`: the guaranteed final
invocation with `completed == total` does not happen.  (The invocation
arguments are `(completed, total, sent, failed) = (0, 1, 0, 0)`.) -/
theorem progress_final_not_total :
    broadcast lostUnitSend lostUnitMsgs 5 true true false true true 20 =
      some (Except.ok ⟨⟨0, 0, 0, 1, 1, {1}⟩, true, some (0, 1, 0, 0), true, []⟩) := rfl

/-- C7 (counterexample): the claim fails on both of its assertions.
First, with `workers = 0` — the invalid configuration the claim says is
raised to the caller — `broadcast` raises nothing: no worker task is
created (`range(0)` is empty), `queue.join()` never completes, and the call
simply never returns (here: still pending after 50 scheduler steps).
Second, a persistence failure can propagate: with a configured session, one
blocked recipient, a failing `save_blocked_user_ids` and a failing
`self._session.rollback()` (the rollback in the `except` arm of
`_save_blocked_users` is unguarded, and line 308 of `broadcast` has no
`try`), `broadcast` raises the rollback error to its caller. -/
theorem raise_behaviour_counterexample :
    broadcast (fun _ _ => SendResult.success) [⟨1, "hi", none⟩] 0 true true true true true 50 =
        none ∧
      broadcast (fun _ _ => SendResult.forbidden) [⟨3, "x", none⟩] 5 false true true false false
          10 =
        some (Except.error "rollback error") :=
  ⟨rfl, rfl⟩

/-- C7 (amended): no per-recipient send failure and no progress-callback
exception ever propagates out of `broadcast()`; a persistence failure is
caught and logged and does not propagate whenever no session is configured
or the subsequent session rollback succeeds — whenever the run drains,
`broadcast` then returns ordinary stats (`Except.ok`); but when the flush
fails with a configured session and the unguarded
`self._session.rollback()` also raises, that error propagates to the
caller.  An invalid worker count `≤ 0` is not raised at start either: with
no workers and a non-empty input the run never drains — `broadcast` never
returns instead of raising. -/
theorem broadcast_raise_behaviour :
    (∀ (sendFn : ℤ → ℕ → SendResult) (messages : List MsgData) (workers : ℕ)
        (hop pok hs perok rbok : Bool) (fuel : ℕ) (r : Except String BroadcastOutcome),
        (rbok = true ∨ hs = false) →
        broadcast sendFn messages workers hop pok hs perok rbok fuel = some r →
          ∃ out, r = Except.ok out) ∧
    (∀ (sendFn : ℤ → ℕ → SendResult) (messages : List MsgData)
        (hop pok hs perok rbok : Bool) (fuel : ℕ), messages ≠ [] →
        broadcast sendFn messages 0 hop pok hs perok rbok fuel = none) := by
  constructor
  · intro sendFn messages workers hop pok hs perok rbok fuel r hcond h
    have hs' : (rbok = true ∧ hs = true) ∨ hs = false := by
      rcases hcond with hrb | hhs
      · cases hs
        · exact Or.inr rfl
        · exact Or.inl ⟨hrb, rfl⟩
      · exact Or.inr hhs
    rcases hs' with ⟨hrb, hhs⟩ | hhs <;> subst hhs <;>
        try subst hrb
    · unfold broadcast at h
      by_cases hd : drained (run workers sendFn fuel (initState messages)) = true <;>
        simp [hd, save_blocked_users_rollback_ok] at h
      exact ⟨_, h.symm⟩
    · unfold broadcast at h
      by_cases hd : drained (run workers sendFn fuel (initState messages)) = true <;>
        simp [hd] at h
      exact ⟨_, h.symm⟩
  · intro sendFn messages hop pok hs perok rbok fuel hne
    rcases messages with _ | ⟨m, ms⟩
    · exact absurd rfl hne
    have hw : workerStep 0 sendFn (initState (m :: ms)) = none := by
      simp [workerStep, initState, initMessages]
    have h0 : runStep 0 sendFn (initState (m :: ms)) = none := by
      unfold runStep
      rw [hw]
      rfl
    have hrun := run_of_none h0 fuel
    have hdr : drained (run 0 sendFn fuel (initState (m :: ms))) = false := by
      rw [hrun]
      simp [drained, initState, initMessages]
    unfold broadcast
    simp [hdr]

/-- C7 (witness): the amended statement at a concrete non-empty input with
zero workers: the run is still pending after 5 steps, nothing was raised. -/
theorem broadcast_raise_behaviour_witness :
    ([⟨1, "hi", none⟩] : List MsgData) ≠ [] ∧
      broadcast (fun _ _ => SendResult.success) [⟨1, "hi", none⟩] 0 true true true true true 5 =
        none :=
  ⟨by simp, broadcast_raise_behaviour.2 (fun _ _ => SendResult.success) [⟨1, "hi", none⟩]
    true true true true true 5 (by simp)⟩

/-- C8 (code bug): `broadcast` only flushes the blocked set behind
`if self._session is not None`.  On a session-less run (exactly how
`run_broadcast_in_thread` constructs the service) with one recipient
classified as blocked, the returned stats carry `blocked_user_ids = {2}`,
yet `save_blocked_user_ids` is invoked zero times — not exactly once. -/
theorem blocked_flush_skipped :
    broadcast (fun _ _ => SendResult.forbidden) [⟨2, "x", none⟩] 5 false true false true true 10 =
      some (Except.ok ⟨⟨0, 0, 1, 1, 1, {2}⟩, false, none, false, []⟩) := rfl

/-- C9: in every reachable state of every run — under any interleaving of
worker and delayed-loop iterations — `total_sent` equals the number of
`True` entries in `results`; consequently the returned stats always satisfy
`total_sent = success_count`. -/
theorem total_sent_eq_success_count (workers : ℕ) (sendFn : ℤ → ℕ → SendResult)
    (msgs : List MsgData) (st : BroadcastState)
    (h : Relation.ReflTransGen (BStep workers sendFn) (initState msgs) st) :
    st.total_sent = st.results.count true ∧
      (statsOf msgs st).total_sent = (statsOf msgs st).success_count := by
  have key : st.total_sent = st.results.count true := by
    induction h with
    | refl => simp [initState]
    | tail hs hstep ih => exact bstep_preserves_count hstep ih
  exact ⟨key, by simpa [statsOf] using key⟩

/-- C9 (witness): the invariant at the freshly seeded state of the empty
run, reachable in zero steps. -/
theorem total_sent_eq_success_count_witness :
    (initState []).total_sent = (initState []).results.count true ∧
      (statsOf [] (initState [])).total_sent = (statsOf [] (initState [])).success_count :=
  total_sent_eq_success_count 5 (fun _ _ => SendResult.success) [] (initState [])
    Relation.ReflTransGen.refl

/-- C10: for an empty messages list, `broadcast` returns stats with
`total_messages = 0`, `total_sent = 0`, `success_count = 0`,
`failed_count = 0` and an empty blocked set, and the progress callback is
never invoked at all — the periodic progress task is not created
(`progressTaskStarted = false`, because it requires `total > 0`) and hence
the final invocation, which is guarded by the task's existence, is skipped
too (`finalProgress = none`). -/
theorem empty_broadcast_no_progress (sendFn : ℤ → ℕ → SendResult) (workers : ℕ)
    (progressOk hasSession persistOk rollbackOk : Bool) (fuel : ℕ) :
    broadcast sendFn [] workers true progressOk hasSession persistOk rollbackOk fuel =
      some (Except.ok ⟨⟨0, 0, 0, 0, 0, ∅⟩, false, none, false, []⟩) := by
  have h0 : runStep workers sendFn (initState []) = none := rfl
  have hrun := run_of_none h0 fuel
  unfold broadcast
  simp only [hrun]
  simp [drained, initState, initMessages, statsOf, save_blocked_users]
